import Mathlib

/-!
Verification of the task-registry / project-model core and the renovatebot
configuration of this repository.

Embedded source files:
* `StandardProject` (the unnamed source file): constructor wiring of the
  `default` and `eject` tasks, `addTask` / `removeTask` delegation,
  `runTaskCommand`, `addPackageIgnore`.
* `Renovatebot` (`src/renovatebot.ts`): option defaulting in the constructor
  and the `ignoreDeps` deduplication in `createRenovateConfiguration`.

The `Tasks` and `Task` classes themselves are imported by the source but their
files are not part of the shown sources; their operations are modelled from
the spec (each such definition carries a `Modelled from the spec:` note).

Modelling conventions:
* TypeScript mutation is rendered as state passing: a mutating method on a
  registry returns the new registry together with the method's result, and a
  thrown exception is an `Except.error` result produced at the point where the
  code throws (the state returned alongside it is the state at throw time, so
  "no partial mutation" is an actual theorem, not an artifact).
* JavaScript object identity for tasks is represented by the task name, which
  the spec designates as the primary key, unique within a registry.
* The global `PROJEN_VERSION` constant (imported from a file not in the shown
  sources) is passed as an explicit `version` string parameter.
* File-emission collaborators (`IgnoreFile`, `GitAttributesFile`, `JsonFile`,
  `ProjectBuild`, `Projenrc`) are declared out of scope by the spec and are
  not part of the model.
-/

namespace Projen

/-- Errors raised by the task core.  `duplicateTask` corresponds to
`DuplicateTaskError`, `selfSpawn` to `SelfSpawnError`. -/
inductive TaskError where
  | duplicateTask (name : String)
  | selfSpawn
deriving DecidableEq, Repr

/-- Modelled from the spec: a `Task` (class `Task`, not among the shown
sources) has a name (unique within a registry, the primary key), an optional
description, an environment mapping, and an ordered list of spawned child
tasks (referenced by name, the primary key standing in for the object
reference). -/
structure Task where
  name : String
  description : Option String
  env : List (String × String)
  spawns : List String
deriving DecidableEq, Repr

/-- Modelled from the spec: options accepted by `addTask` — an optional
description and environment entries. -/
structure TaskOptions where
  description : Option String := none
  env : List (String × String) := []
deriving DecidableEq, Repr

/-- Modelled from the spec: `Task.spawn(childTask)` appends `childTask` to
`spawns` and fails with `SelfSpawnError` if `childTask === this`.  Reference
equality `===` is represented by name equality (names are unique per
registry).  Returns the (possibly updated) task together with the outcome. -/
def Task.spawn (t child : Task) : Task × Except TaskError Unit :=
  if t.name == child.name then
    (t, Except.error TaskError.selfSpawn)
  else
    ({ t with spawns := t.spawns ++ [child.name] }, Except.ok ())

/-- A task registry is the ordered mapping from names to tasks, insertion
order preserved; represented as a list of tasks with unique names. -/
abbrev TaskRegistry := List Task

namespace Tasks

/-- Modelled from the spec: `get(name)` — lookup without side effects,
returning the task or the absent marker. -/
def get (reg : TaskRegistry) (name : String) : Option Task :=
  reg.find? (fun t => t.name == name)

/-- Modelled from the spec: `Tasks.addTask(name, options)` fails with
`DuplicateTaskError` if `name` is already present; otherwise it constructs a
task with the given description/environment and an empty spawn list, stores
it (insertion order preserved), and returns it. -/
def addTask (reg : TaskRegistry) (name : String) (opts : TaskOptions) :
    TaskRegistry × Except TaskError Task :=
  if reg.any (fun t => t.name == name) then
    (reg, Except.error (TaskError.duplicateTask name))
  else
    let t : Task := { name := name, description := opts.description,
                      env := opts.env, spawns := [] }
    (reg ++ [t], Except.ok t)

/-- Modelled from the spec: `Tasks.removeTask(name)` removes and returns the
task if present, else returns the absent marker (not an error). -/
def removeTask (reg : TaskRegistry) (name : String) :
    TaskRegistry × Option Task :=
  match reg.find? (fun t => t.name == name) with
  | none => (reg, none)
  | some t => (reg.filter (fun u => !(u.name == name)), some t)

/-- Registry-level spawn: replaces the parent task in the registry by its
spawned version, mirroring the in-place mutation of the task object held by
the registry. -/
def spawnIn (reg : TaskRegistry) (parent child : Task) :
    TaskRegistry × Except TaskError Unit :=
  let (p2, r) := Task.spawn parent child
  (reg.map (fun t => if t.name == parent.name then p2 else t), r)

end Tasks

/-- The project model of `StandardProject`: the ejected flag, the
`projenCommand` field, the task registry, and the optional default/eject
tasks (held by name, the primary key standing in for the object
reference). -/
structure StandardProject where
  ejected : Bool
  projenCommand : String
  tasks : TaskRegistry
  defaultTask : Option String
  ejectTask : Option String
deriving DecidableEq, Repr

namespace StandardProject

/-- The constant `StandardProject.DEFAULT_TASK = "default"`. -/
def DEFAULT_TASK : String := "default"

/-- The task-related part of the `StandardProject` constructor.
If `ejected`, `projenCommand` is set to `"scripts/run-task"` and no tasks are
created.  Otherwise `projenCommand` defaults to `"npx projen"`, the
`"default"` task is added (description `"Synthesize project files"`), the
`"eject"` task is added (description `"Remove projen from the project"`, env
`PROJEN_EJECTING=true`), and the eject task spawns the default task.  A
thrown `TaskError` propagates out of the constructor as `Except.error`
(unreachable from the empty registry, but modelled faithfully). -/
def construct (ejected : Bool) (projenCommandOption : Option String) :
    Except TaskError StandardProject :=
  if ejected then
    Except.ok { ejected := true, projenCommand := "scripts/run-task",
                tasks := [], defaultTask := none, ejectTask := none }
  else
    let (reg1, r1) := Tasks.addTask [] DEFAULT_TASK
      { description := some "Synthesize project files" }
    match r1 with
    | Except.error e => Except.error e
    | Except.ok dflt =>
      let (reg2, r2) := Tasks.addTask reg1 "eject"
        { description := some "Remove projen from the project",
          env := [("PROJEN_EJECTING", "true")] }
      match r2 with
      | Except.error e => Except.error e
      | Except.ok ej =>
        let (reg3, r3) := Tasks.spawnIn reg2 ej dflt
        match r3 with
        | Except.error e => Except.error e
        | Except.ok _ =>
          Except.ok { ejected := false,
                      projenCommand := projenCommandOption.getD "npx projen",
                      tasks := reg3,
                      defaultTask := some dflt.name,
                      ejectTask := some ej.name }

/-- Method `StandardProject.addTask` delegates to `this.tasks.addTask`. -/
def addTask (p : StandardProject) (name : String) (opts : TaskOptions) :
    StandardProject × Except TaskError Task :=
  let (reg, r) := Tasks.addTask p.tasks name opts
  ({ p with tasks := reg }, r)

/-- Method `StandardProject.removeTask` delegates to `this.tasks.removeTask`. -/
def removeTask (p : StandardProject) (name : String) :
    StandardProject × Option Task :=
  let (reg, r) := Tasks.removeTask p.tasks name
  ({ p with tasks := reg }, r)

/-- Method `StandardProject.runTaskCommand(task)` returns
`` `npx projen@${PROJEN_VERSION} ${task.name}` ``; the global
`PROJEN_VERSION` is the explicit `version` parameter.  Note that the method
reads no project state. -/
def runTaskCommand (_p : StandardProject) (version : String) (task : Task) :
    String :=
  "npx projen@" ++ version ++ " " ++ task.name

/-- Method `StandardProject.addPackageIgnore(_pattern)` — nothing to do at the
abstract level. -/
def addPackageIgnore (p : StandardProject) (_pattern : String) :
    StandardProject :=
  p

end StandardProject

/-- A project dependency as seen through `this._project.deps.all`
(`Dependencies` is not among the shown sources; modelled from the spec's
read-only enumeration capability: a name plus an optional version).  The
source filters on the JavaScript truthiness of `dep.version`, so the version
is kept as an optional string. -/
structure Dep where
  name : String
  version : Option String
deriving DecidableEq, Repr

/-- JavaScript truthiness of an optional string: `undefined` and the empty
string are falsy. -/
def jsTruthy : Option String → Bool
  | none => false
  | some s => !(s == "")

/-- Deduplication as JavaScript `[...new Set(l)]` performs it: first-occurrence insertion
order, as a JavaScript `Set` does. -/
def jsSetDedup (l : List String) : List String :=
  l.foldl (fun acc x => if x ∈ acc then acc else acc ++ [x]) []

/-- Options for `Renovatebot` (`RenovatebotOptions`). -/
structure RenovatebotOptions where
  scheduleInterval : Option (List String) := none
  ignore : Option (List String) := none
  ignoreProjen : Option Bool := none
  labels : Option (List String) := none
deriving DecidableEq, Repr

/-- The state of a `Renovatebot` component after its constructor ran. -/
structure Renovatebot where
  explicitIgnores : List String
  scheduleInterval : List String
  labels : Option (List String)
deriving DecidableEq, Repr

/-- The `Renovatebot` constructor logic: `explicitIgnores` starts as
`options.ignore ?? []` and `"projen"` is pushed onto it unless
`options.ignoreProjen` is explicitly `false`; `scheduleInterval` defaults to
`[RenovatebotScheduleInterval.ANY_TIME]`, i.e. `["at any time"]`; `labels`
is passed through. -/
def Renovatebot.construct (options : RenovatebotOptions) : Renovatebot :=
  { explicitIgnores :=
      options.ignore.getD [] ++
        (if options.ignoreProjen.getD true then ["projen"] else []),
    scheduleInterval := options.scheduleInterval.getD ["at any time"],
    labels := options.labels }

/-- The part of the emitted `renovate.json5` object that the constructor's
state and the dependency list determine.  `extendsList` stands for the
reserved-word field `extends`; the constant `packageRules` entry is a nested
fixed object not touched by any claim and is left out of the model. -/
structure RenovateConfig where
  labels : Option (List String)
  schedule : List String
  extendsList : List String
  ignoreDeps : List String
deriving DecidableEq, Repr

/-- Method `Renovatebot.createRenovateConfiguration` (called from `preSynthesize`):
`ignoreDeps` is the deduplicated concatenation of the names of all project
dependencies with a truthy version and the explicit ignores; the dependency
list `deps` stands for `this._project.deps.all` at synthesis time. -/
def Renovatebot.createRenovateConfiguration (rb : Renovatebot)
    (deps : List Dep) : RenovateConfig :=
  { labels := rb.labels,
    schedule := rb.scheduleInterval,
    extendsList := [":preserveSemverRanges", "config:base", "group:allNonMajor",
                    "group:recommended", "group:monorepos"],
    ignoreDeps :=
      jsSetDedup ((deps.filter (fun d => jsTruthy d.version)).map Dep.name ++
        rb.explicitIgnores) }

/-! ## Helper lemmas (shared) -/

/-- The fold underlying `jsSetDedup` keeps the accumulator duplicate-free. -/
theorem jsSetDedup_loop_nodup (l : List String) :
    ∀ acc : List String, acc.Nodup →
      (l.foldl (fun acc x => if x ∈ acc then acc else acc ++ [x]) acc).Nodup := by
  induction l with
  | nil => intro acc h; simpa using h
  | cons x xs ih =>
    intro acc h
    simp only [List.foldl_cons]
    by_cases hx : x ∈ acc
    · rw [if_pos hx]; exact ih acc h
    · rw [if_neg hx]
      refine ih _ ?_
      simp [List.nodup_append, h, hx]

/-- Membership through the fold underlying `jsSetDedup`. -/
theorem jsSetDedup_loop_mem (l : List String) :
    ∀ (acc : List String) (y : String),
      (y ∈ l.foldl (fun acc x => if x ∈ acc then acc else acc ++ [x]) acc) ↔
        (y ∈ acc ∨ y ∈ l) := by
  induction l with
  | nil => intro acc y; simp
  | cons x xs ih =>
    intro acc y
    simp only [List.foldl_cons]
    by_cases hx : x ∈ acc
    · rw [if_pos hx, ih]
      constructor
      · rintro (h | h)
        · exact Or.inl h
        · exact Or.inr (List.mem_cons_of_mem _ h)
      · rintro (h | h)
        · exact Or.inl h
        · rcases List.mem_cons.mp h with h | h
          · exact Or.inl (h ▸ hx)
          · exact Or.inr h
    · rw [if_neg hx, ih]
      simp only [List.mem_append, List.mem_singleton, List.mem_cons]
      tauto

/-- `jsSetDedup` returns a duplicate-free list. -/
theorem jsSetDedup_nodup (l : List String) : (jsSetDedup l).Nodup :=
  jsSetDedup_loop_nodup l [] List.nodup_nil

/-- `jsSetDedup` preserves membership. -/
theorem mem_jsSetDedup (l : List String) (y : String) :
    y ∈ jsSetDedup l ↔ y ∈ l := by
  rw [jsSetDedup, jsSetDedup_loop_mem]
  simp

/-! ## Claims -/

/-- C1 (counterexample): in ejected mode the constructed project has
`projenCommand = "scripts/run-task"`, yet `runTaskCommand` on a task named
`"build"` returns the versioned npx string, not a local-script invocation:
the claim that `runTaskCommand` returns the fixed local-script invocation
string in ejected mode is false. -/
theorem ejected_runTaskCommand_not_local_cex :
    (StandardProject.construct true none).toOption.map
        (fun p => p.projenCommand) = some "scripts/run-task"
  ∧ (StandardProject.construct true none).toOption.map
        (fun p => StandardProject.runTaskCommand p "1.0.0"
          { name := "build", description := none, env := [], spawns := [] })
      = some "npx projen@1.0.0 build"
  ∧ (StandardProject.construct true none).toOption.map
        (fun p => StandardProject.runTaskCommand p "1.0.0"
          { name := "build", description := none, env := [], spawns := [] })
      ≠ some "scripts/run-task build"
  ∧ (StandardProject.construct true none).toOption.map
        (fun p => StandardProject.runTaskCommand p "1.0.0"
          { name := "build", description := none, env := [], spawns := [] })
      ≠ some "scripts/run-task" := by
  refine ⟨rfl, rfl, ?_, ?_⟩ <;> decide

/-- C1 (amended): a project constructed in ejected mode has no `"default"`
task and its `projenCommand` field is the fixed local-script path
`"scripts/run-task"`; `runTaskCommand`, however, returns the versioned npx
invocation string for every task and every project, in ejected mode too. -/
theorem ejected_no_default_task_and_npx_runTaskCommand :
    (∀ c, (StandardProject.construct true c).toOption.map
        (fun p => (Tasks.get p.tasks StandardProject.DEFAULT_TASK,
                   p.projenCommand))
      = some (none, "scripts/run-task"))
  ∧ (∀ (p : StandardProject) (version : String) (t : Task),
      StandardProject.runTaskCommand p version t
        = "npx projen@" ++ version ++ " " ++ t.name) :=
  ⟨fun _ => rfl, fun _ _ _ => rfl⟩

/-- C2: adding a task whose name is already present in the registry fails
with `DuplicateTaskError` and leaves the registry — tasks, contents and
order — exactly as it was, at the registry level and through the
`StandardProject.addTask` delegation. -/
theorem addTask_duplicate_error (p : StandardProject) (name : String)
    (opts : TaskOptions) (t : Task) (ht : t ∈ p.tasks) (hn : t.name = name) :
    Tasks.addTask p.tasks name opts
        = (p.tasks, Except.error (TaskError.duplicateTask name))
  ∧ StandardProject.addTask p name opts
        = (p, Except.error (TaskError.duplicateTask name)) := by
  have hany : p.tasks.any (fun u => u.name == name) = true :=
    List.any_eq_true.mpr ⟨t, ht, by simp [hn]⟩
  constructor
  · rw [Tasks.addTask, if_pos hany]
  · show (let (reg, r) := Tasks.addTask p.tasks name opts
          ({ p with tasks := reg }, r)) = _
    rw [Tasks.addTask, if_pos hany]

/-- C2 witness. -/
theorem addTask_duplicate_error_witness :
    StandardProject.addTask
        { ejected := false, projenCommand := "npx projen",
          tasks := [{ name := "a", description := none, env := [],
                      spawns := [] }],
          defaultTask := none, ejectTask := none } "a" {}
      = ({ ejected := false, projenCommand := "npx projen",
           tasks := [{ name := "a", description := none, env := [],
                       spawns := [] }],
           defaultTask := none, ejectTask := none },
         Except.error (TaskError.duplicateTask "a")) :=
  (addTask_duplicate_error _ "a" {}
    { name := "a", description := none, env := [], spawns := [] }
    (by decide) rfl).2

/-- C3: the default task and the eject task are present exactly when the
project is not in ejected mode — in ejected mode neither exists, in normal
mode both do — and the `addTask` / `removeTask` operations never change the
mode or the default/eject fields afterward. -/
theorem default_eject_presence :
    (∀ c, (StandardProject.construct true c).toOption.map
        (fun p => (p.ejected, p.defaultTask, p.ejectTask))
      = some (true, none, none))
  ∧ (∀ c, (StandardProject.construct false c).toOption.map
        (fun p => (p.ejected, p.defaultTask, p.ejectTask))
      = some (false, some StandardProject.DEFAULT_TASK, some "eject"))
  ∧ (∀ (p : StandardProject) (n : String) (o : TaskOptions),
      (StandardProject.addTask p n o).1.defaultTask = p.defaultTask
        ∧ (StandardProject.addTask p n o).1.ejectTask = p.ejectTask
        ∧ (StandardProject.addTask p n o).1.ejected = p.ejected)
  ∧ (∀ (p : StandardProject) (n : String),
      (StandardProject.removeTask p n).1.defaultTask = p.defaultTask
        ∧ (StandardProject.removeTask p n).1.ejectTask = p.ejectTask
        ∧ (StandardProject.removeTask p n).1.ejected = p.ejected) :=
  ⟨fun _ => rfl, fun _ => rfl,
   fun _ _ _ => ⟨rfl, rfl, rfl⟩, fun _ _ => ⟨rfl, rfl, rfl⟩⟩

/-- C4: in normal mode the constructor wires the eject task to spawn the
default task: right after construction the `"eject"` task's spawn list is
exactly the one-element sequence `["default"]`. -/
theorem eject_spawns_default :
    ∀ c, (StandardProject.construct false c).toOption.map
        (fun p => (Tasks.get p.tasks "eject").map Task.spawns)
      = some (some [StandardProject.DEFAULT_TASK]) :=
  fun _ => rfl

/-- C5: spawning a task onto itself fails with `SelfSpawnError` and leaves
the spawn list unchanged; spawning a distinct child (identity is the name,
the registry's primary key) appends the child at the end of the spawn
list. -/
theorem spawn_self_error :
    (∀ t : Task, Task.spawn t t = (t, Except.error TaskError.selfSpawn))
  ∧ (∀ t c : Task, t.name ≠ c.name →
      Task.spawn t c
        = ({ t with spawns := t.spawns ++ [c.name] }, Except.ok ())) := by
  constructor
  · intro t; simp [Task.spawn]
  · intro t c h
    rw [Task.spawn, if_neg (by simpa using h)]

/-- C5 witness. -/
theorem spawn_self_error_witness :
    Task.spawn { name := "a", description := none, env := [], spawns := [] }
        { name := "a", description := none, env := [], spawns := [] }
      = ({ name := "a", description := none, env := [], spawns := [] },
         Except.error TaskError.selfSpawn)
  ∧ Task.spawn { name := "a", description := none, env := [], spawns := [] }
        { name := "b", description := none, env := [], spawns := [] }
      = ({ name := "a", description := none, env := [], spawns := ["b"] },
         Except.ok ()) :=
  ⟨spawn_self_error.1 _, spawn_self_error.2 _ _ (by decide)⟩

/-- C6: removing an absent name returns the absent marker (`none`, not an
error) and leaves the registry unchanged — also through the
`StandardProject.removeTask` delegation — while removing a present name
removes and returns that task, after which `get` for that name returns the
absent marker. -/
theorem removeTask_absent_present (reg : TaskRegistry) (name : String) :
    (Tasks.get reg name = none → Tasks.removeTask reg name = (reg, none))
  ∧ (∀ t, Tasks.get reg name = some t →
      (Tasks.removeTask reg name).2 = some t
        ∧ Tasks.get (Tasks.removeTask reg name).1 name = none)
  ∧ (∀ p : StandardProject, p.tasks = reg → Tasks.get reg name = none →
      StandardProject.removeTask p name = (p, none)) := by
  refine ⟨?_, ?_, ?_⟩
  · intro h
    rw [Tasks.removeTask, show reg.find? (fun t => t.name == name) = none from h]
  · intro t ht
    rw [Tasks.removeTask, show reg.find? (fun t => t.name == name) = some t from ht]
    refine ⟨rfl, ?_⟩
    rw [Tasks.get]
    refine List.find?_eq_none.mpr ?_
    intro x hx
    have := (List.mem_filter.mp hx).2
    simpa using this
  · intro p hp h
    subst hp
    show (let (r2, r) := Tasks.removeTask p.tasks name
          ({ p with tasks := r2 }, r)) = _
    rw [Tasks.removeTask,
        show p.tasks.find? (fun t => t.name == name) = none from h]

/-- C6 witness. -/
theorem removeTask_absent_present_witness :
    Tasks.removeTask ([] : TaskRegistry) "x" = ([], none)
  ∧ (Tasks.removeTask
        [{ name := "a", description := none, env := [], spawns := [] }]
        "a").2
      = some { name := "a", description := none, env := [], spawns := [] }
  ∧ Tasks.get (Tasks.removeTask
        [{ name := "a", description := none, env := [], spawns := [] }]
        "a").1 "a" = none :=
  ⟨(removeTask_absent_present [] "x").1 rfl,
   ((removeTask_absent_present
      [{ name := "a", description := none, env := [], spawns := [] }] "a").2.1
      { name := "a", description := none, env := [], spawns := [] }
      (by decide)).1,
   ((removeTask_absent_present
      [{ name := "a", description := none, env := [], spawns := [] }] "a").2.1
      { name := "a", description := none, env := [], spawns := [] }
      (by decide)).2⟩

/-- C7: `runTaskCommand` is a pure function of the fixed prefix, the version
token and the task's name: any two projects and any two tasks with the same
name yield the identical string, which is the fixed prefix followed by the
version and the name; no project state is read or written. -/
theorem runTaskCommand_pure (p q : StandardProject) (version : String)
    (t u : Task) (h : t.name = u.name) :
    StandardProject.runTaskCommand p version t
        = StandardProject.runTaskCommand q version u
  ∧ StandardProject.runTaskCommand p version t
        = "npx projen@" ++ version ++ " " ++ t.name :=
  ⟨by rw [StandardProject.runTaskCommand, StandardProject.runTaskCommand, h],
   rfl⟩

/-- C7 witness. -/
theorem runTaskCommand_pure_witness :
    StandardProject.runTaskCommand
        { ejected := false, projenCommand := "npx projen", tasks := [],
          defaultTask := none, ejectTask := none } "1.2.3"
        { name := "build", description := none, env := [], spawns := [] }
      = StandardProject.runTaskCommand
        { ejected := true, projenCommand := "scripts/run-task", tasks := [],
          defaultTask := none, ejectTask := none } "1.2.3"
        { name := "build", description := some "d", env := [],
          spawns := ["x"] }
  ∧ StandardProject.runTaskCommand
        { ejected := false, projenCommand := "npx projen", tasks := [],
          defaultTask := none, ejectTask := none } "1.2.3"
        { name := "build", description := none, env := [], spawns := [] }
      = "npx projen@" ++ "1.2.3" ++ " " ++ "build" :=
  runTaskCommand_pure _ _ "1.2.3" _ _ rfl

/-- C8: the emitted `ignoreDeps` list of the renovate configuration has set
semantics: it never contains a name twice, whatever the project dependency
list and the explicit-ignores state are. -/
theorem ignoreDeps_nodup (rb : Renovatebot) (deps : List Dep) :
    (Renovatebot.createRenovateConfiguration rb deps).ignoreDeps.Nodup :=
  jsSetDedup_nodup _

/-- C9: unless `ignoreProjen` is explicitly `false`, the name `"projen"`
appears in the emitted `ignoreDeps`; and when `scheduleInterval` is omitted
the emitted schedule defaults to `["at any time"]`. -/
theorem renovate_defaults (options : RenovatebotOptions) (deps : List Dep) :
    (options.ignoreProjen ≠ some false →
      "projen" ∈ (Renovatebot.createRenovateConfiguration
          (Renovatebot.construct options) deps).ignoreDeps)
  ∧ (options.scheduleInterval = none →
      (Renovatebot.createRenovateConfiguration
          (Renovatebot.construct options) deps).schedule
        = ["at any time"]) := by
  constructor
  · intro h
    rw [Renovatebot.createRenovateConfiguration]
    rw [mem_jsSetDedup]
    refine List.mem_append.mpr (Or.inr ?_)
    rw [Renovatebot.construct]
    have hb : options.ignoreProjen.getD true = true := by
      rcases hv : options.ignoreProjen with _ | b
      · rfl
      · cases b
        · exact absurd hv h
        · rfl
    simp [hb]
  · intro h
    rw [Renovatebot.createRenovateConfiguration, Renovatebot.construct, h]
    rfl

/-- C9 witness. -/
theorem renovate_defaults_witness :
    "projen" ∈ (Renovatebot.createRenovateConfiguration
        (Renovatebot.construct {}) []).ignoreDeps
  ∧ (Renovatebot.createRenovateConfiguration
        (Renovatebot.construct {}) []).schedule = ["at any time"] :=
  ⟨(renovate_defaults {} []).1 (by decide), (renovate_defaults {} []).2 rfl⟩

/-- C10: `addPackageIgnore` on the base `StandardProject` is a no-op: for
every glob, the project state after the call is exactly the state before. -/
theorem addPackageIgnore_noop (p : StandardProject) (pat : String) :
    StandardProject.addPackageIgnore p pat = p :=
  rfl

end Projen
